import Mathlib

/-!
Shallow embedding of the synapsebot repository (gscafo78/synapsebot):
the three variants `src/rssbot.py` (async, namespace `Rssbot`),
`src/rssbot_dev.py` (namespace `RssbotDev`) and `src/rssbot_stable.py`
(whose relevant functions coincide with the other two).

Times of day are seconds since midnight (a `Nat`); wall-clock timestamps
are seconds since the epoch (a `Nat`); HTTP transports are explicit
boolean parameters; `random.choice` is an explicit index parameter.
-/

/-- Value of a list of decimal digit characters. -/
def digitsVal (cs : List Char) : Nat :=
  cs.foldl (fun acc c => acc * 10 + (c.toNat - 48)) 0

/-- Split a character list at every `:` (the semantics of
`str.split(":")` / `String.splitOn ":"` for a one-character separator). -/
def splitColon : List Char → List (List Char)
  | [] => [[]]
  | c :: cs =>
    if c = ':' then [] :: splitColon cs
    else
      match splitColon cs with
      | [] => [[c]]
      | g :: gs => (c :: g) :: gs

/-- Model of Python `datetime.strptime(s, "%H:%M").time()`: `%H` is one or
two digits in `0..23`, `%M` is one or two digits in `0..59`, joined by a
single `:` consuming the whole string.  Returns the time of day in seconds;
`none` models a raised `ValueError`. -/
def parseTime (s : String) : Option Nat :=
  match splitColon s.toList with
  | [hc, mc] =>
    if 1 ≤ hc.length ∧ hc.length ≤ 2 ∧ hc.all Char.isDigit
       ∧ 1 ≤ mc.length ∧ mc.length ≤ 2 ∧ mc.all Char.isDigit then
      let hv := digitsVal hc
      let mv := digitsVal mc
      if hv ≤ 23 ∧ mv ≤ 59 then some (hv * 3600 + mv * 60) else none
    else none
  | _ => none

namespace Rssbot

/-- Embedding of `RSSBot.is_mute_time` from `src/rssbot.py` (identical in
`src/rssbot_stable.py`): parse both bounds, then
`if mute_from < mute_to: return mute_from <= now <= mute_to` and otherwise
`return now >= mute_from or now <= mute_to`; a `ValueError` from parsing is
caught and yields `False`. -/
def is_mute_time (mute_from mute_to : String) (now : Nat) : Bool :=
  match parseTime mute_from, parseTime mute_to with
  | some f, some t =>
    if f < t then decide (f ≤ now ∧ now ≤ t)
    else decide (f ≤ now ∨ now ≤ t)
  | _, _ => false

end Rssbot

namespace RssbotDev

/-- Embedding of `RSSBot.is_mute_time` from `src/rssbot_dev.py`:
`(mute_from < mute_to and mute_from <= now <= mute_to) or
 (mute_from > mute_to and (now >= mute_from or now <= mute_to))`,
with a caught `ValueError` yielding `False`. -/
def is_mute_time (mute_from mute_to : String) (now : Nat) : Bool :=
  match parseTime mute_from, parseTime mute_to with
  | some f, some t =>
    (decide (f < t) && decide (f ≤ now ∧ now ≤ t))
      || (decide (t < f) && decide (f ≤ now ∨ now ≤ t))
  | _, _ => false

end RssbotDev

namespace Rssbot

/-- Python truthiness of the token returned by `RSSBot._read_token`
(`None` when the key is absent or the file is unreadable): `if not token`
rejects both `None` and the empty string. -/
def tokenTruthy : Option String → Bool
  | none => false
  | some s => !(s == "")

/-- Observable outcome of one HTTP-sending method call: the returned
boolean and how many HTTP requests the call issued. -/
structure HttpResult where
  ok : Bool
  requests : Nat
deriving DecidableEq, Repr

/-- Embedding of `RSSBot.send_message` from `src/rssbot.py`: re-read the
token, return `False` without any request when it is falsy, otherwise POST
the message; `raise_for_status` failures (`aiohttp.ClientError`) are caught
and reported as `False`.  `token` is the value `_read_token` yields at call
time and `transportOk` is whether the POST succeeds.  The function keeps no
state: no timestamp of a previous send exists anywhere in this variant. -/
def send_message (token : Option String) (transportOk : Bool) : HttpResult :=
  if tokenTruthy token then { ok := transportOk, requests := 1 }
  else { ok := false, requests := 0 }

/-- Embedding of `RSSBot.mark_message_as_read` from `src/rssbot.py`: same
shape as `send_message` (token check, one POST, errors reported as
`False`). -/
def mark_message_as_read (token : Option String) (event_id : String)
    (transportOk : Bool) : HttpResult :=
  if tokenTruthy token then { ok := transportOk, requests := 1 }
  else { ok := false, requests := 0 }

end Rssbot

namespace RssbotDev

/-- The mutable dispatcher state of `src/rssbot_dev.py`:
`self.last_sent_time`, `None` until the first successful send, then the
`time.time()` of the last successful send (seconds since the epoch). -/
structure SendState where
  last_sent_time : Option Nat
deriving DecidableEq, Repr

/-- Python truthiness of `self.last_sent_time`
(`if self.last_sent_time and ...`): falsy when `None` or `0`. -/
def timeTruthy : Option Nat → Bool
  | none => false
  | some t => !(t == 0)

/-- Outcome of one `send_message` call in `src/rssbot_dev.py`: returned
boolean, number of HTTP requests issued, and the dispatcher state after the
call. -/
structure SendOutcome where
  ok : Bool
  requests : Nat
  state : SendState
deriving DecidableEq, Repr

/-- Embedding of `RSSBot.send_message` from `src/rssbot_dev.py`: if
`last_sent_time` is truthy and `time.time() - last_sent_time < 60`, log and
return `False` with no request; otherwise POST, and only on transport
success set `last_sent_time` to `now` and return `True` (a
`RequestException` is caught, leaving the state unchanged).  `now` is the
value of `time.time()`; Python's negative float difference under clock skew
and Nat truncated subtraction both stay below 60, so the `Nat` model is
faithful. -/
def send_message (st : SendState) (now : Nat) (transportOk : Bool) :
    SendOutcome :=
  if timeTruthy st.last_sent_time = true ∧ now - st.last_sent_time.getD 0 < 60 then
    { ok := false, requests := 0, state := st }
  else if transportOk then
    { ok := true, requests := 1, state := { last_sent_time := some now } }
  else
    { ok := false, requests := 1, state := st }

end RssbotDev

namespace Rssbot

/-- A parsed feed entry as `feedparser` exposes it: `entry.title`,
`entry.link`, and `entry.summary` which may be absent
(`hasattr(entry, 'summary')`). -/
structure Entry where
  title : String
  link : String
  summary : Option String
deriving DecidableEq, Repr

/-- The article record built by `fetch_random_article`. -/
structure Article where
  title : String
  link : String
  summary : String
deriving DecidableEq, Repr

/-- What one `session.get(feed_url)` in `fetch_random_article` yields:
either an exception during fetch, or a response with an HTTP status and —
when the body is parsed — the `bozo` flag and the entry list. -/
inductive FeedResult where
  | fetchError
  | response (status : Nat) (bozo : Bool) (entries : List Entry)
deriving DecidableEq, Repr

/-- The per-entry dictionary built in the loop body of
`fetch_random_article`: summary defaulted to the placeholder when the entry
has none. -/
def entryToArticle (e : Entry) : Article :=
  { title := e.title, link := e.link,
    summary := e.summary.getD "No summary available." }

/-- The articles one feed contributes: nothing on a fetch exception, a
non-200 status, or a `bozo` (malformed-markup) parse; otherwise all its
entries. -/
def feedArticles : FeedResult → List Article
  | .fetchError => []
  | .response status bozo es =>
    if status = 200 then (if bozo then [] else es.map entryToArticle) else []

/-- A feed the loop skips: fetch exception, non-200 status, or parse
failure. -/
def feedFails : FeedResult → Bool
  | .fetchError => true
  | .response status bozo _ => !(status == 200) || bozo

/-- Observable outcome of the fetch loop: the accumulated candidate pool
and the URLs requested over the network. -/
structure FetchOutcome where
  articles : List Article
  requests : List String
deriving DecidableEq, Repr

/-- Embedding of the loop of `RSSBot.fetch_random_article`
(`src/rssbot.py`): for each configured feed URL, unconditionally issue one
`session.get` and accumulate the feed's articles; there is no cache, TTL,
or fetch timestamp anywhere in the repository. -/
def fetchAll : List (String × FeedResult) → FetchOutcome
  | [] => { articles := [], requests := [] }
  | (u, r) :: fs =>
    let rest := fetchAll fs
    { articles := feedArticles r ++ rest.articles,
      requests := u :: rest.requests }

/-- Embedding of `RSSBot.fetch_random_article`: run the loop, then
`random.choice(articles) if articles else None`; `choice` stands for the
random draw (an arbitrary index reduced modulo the pool size). -/
def fetch_random_article (feeds : List (String × FeedResult))
    (choice : Nat) : Option Article :=
  let articles := (fetchAll feeds).articles
  if articles.isEmpty then none
  else articles[choice % articles.length]?

end Rssbot

namespace Rssbot

/-- One timeline event of a `/sync` response, as `listen_for_events` reads
it: `event["type"]` plus the keys the handler looks up, each `none` when
the corresponding dictionary key is absent (so the lookup would raise
`KeyError`). -/
structure Event where
  type : String
  event_id : Option String
  content_membership : Option String
  state_key : Option String
deriving DecidableEq, Repr

/-- The outbound calls the event handler makes. -/
inductive Action where
  | markRead (event_id : String)
  | sendWelcome (user_id : String)
deriving DecidableEq, Repr

/-- One iteration of the `for event in room_events` body:
`.error ()` models an uncaught `KeyError` from a missing dictionary key. -/
def processEvent (e : Event) : Except Unit (Option Action) :=
  if e.type = "m.room.message" then
    match e.event_id with
    | none => .error ()
    | some id => .ok (some (.markRead id))
  else if e.type = "m.room.member" then
    match e.content_membership with
    | none => .error ()
    | some m =>
      if m = "join" then
        match e.state_key with
        | none => .error ()
        | some uid => .ok (some (.sendWelcome uid))
      else .ok none
  else .ok none

/-- The whole `for` loop over one response's events: the actions performed
in order, and whether a `KeyError` was raised (which aborts the loop, so
the remaining events contribute nothing). -/
def processEvents : List Event → List Action × Bool
  | [] => ([], false)
  | e :: es =>
    match processEvent e with
    | .error _ => ([], true)
    | .ok none => processEvents es
    | .ok (some a) =>
      let rest := processEvents es
      (a :: rest.1, rest.2)

/-- The parsed body of one successful `/sync` response: the `next_batch`
cursor (absent key modelled as `none`) and the room's timeline events
(the chained `.get(...)` defaults make an absent path the empty list). -/
structure SyncResponse where
  next_batch : Option String
  room_events : List Event
deriving DecidableEq, Repr

/-- What one poll request in the `while True` loop yields: an
`aiohttp.ClientError` (connection failure or a `raise_for_status` error)
or a response. -/
inductive PollResult where
  | clientError
  | ok (resp : SyncResponse)
deriving DecidableEq, Repr

/-- `if next_batch: params["since"] = next_batch` — the cursor is replaced
only by a truthy (present, nonempty) `next_batch`. -/
def updateSince (since : Option String) (resp : SyncResponse) :
    Option String :=
  match resp.next_batch with
  | some nb => if nb = "" then since else some nb
  | none => since

/-- Result of one iteration of the `while True` loop (after the token
check): an uncaught `KeyError` escapes the `except aiohttp.ClientError`
handler and kills the coroutine (`raised`, carrying the actions performed
before the bad event), or the loop continues with a new cursor, the sleep
it performed (10 s in the error handler, none otherwise), and the actions
it performed. -/
inductive StepOutcome where
  | raised (actions : List Action)
  | cont (since : Option String) (sleep : Nat) (actions : List Action)
deriving DecidableEq, Repr

/-- Embedding of one iteration of `RSSBot.listen_for_events`
(`src/rssbot.py`, lines 174-201): a `ClientError` is logged and followed by
`await asyncio.sleep(10)` — a fixed 10 seconds, with no state carried
between iterations; on success the cursor is updated first, then the
events are processed. -/
def listenStep (since : Option String) (poll : PollResult) : StepOutcome :=
  match poll with
  | .clientError => .cont since 10 []
  | .ok resp =>
    let s := updateSince since resp
    let pr := processEvents resp.room_events
    if pr.2 then .raised pr.1 else .cont s 0 pr.1

/-- How a (finite trace of a) run of `listen_for_events` ends: `returned`
(the coroutine exited normally), `raised` (an uncaught exception), or
`polling` (all supplied poll outcomes consumed and the loop still
running).  `sleeps` records every sleep performed, in order. -/
inductive RunResult where
  | returned (sleeps : List Nat)
  | raised (sleeps : List Nat)
  | polling (since : Option String) (sleeps : List Nat)
deriving DecidableEq, Repr

/-- The `while True` loop driven by a finite trace of poll outcomes. -/
def listenGo (since : Option String) (polls : List PollResult)
    (sleeps : List Nat) : RunResult :=
  match polls with
  | [] => .polling since sleeps
  | p :: ps =>
    match listenStep since p with
    | .raised _ => .raised sleeps
    | .cont s d _ => listenGo s ps (sleeps ++ [d])

/-- Embedding of `RSSBot.listen_for_events`: read the token once; if it is
falsy, log and `return` immediately (before any polling); otherwise enter
the loop with no `since` parameter set. -/
def listen_for_events (token : Option String)
    (polls : List PollResult) : RunResult :=
  if tokenTruthy token then listenGo none polls [] else .returned []

/-- A poll outcome that does not kill the coroutine: a network error
(caught and retried) or a response all of whose events process without a
`KeyError`. -/
def pollSafe : PollResult → Bool
  | .clientError => true
  | .ok resp => !(processEvents resp.room_events).2

end Rssbot

/-- C4 (amended): with both bounds well-formed, `rssbot.py`'s
`is_mute_time` is characterized exactly as the claim states (the wraparound
rule covers `from = to`); `rssbot_dev.py`'s variant agrees on `from < to`
and `from > to`, but when `from = to` it returns `false` for every `now`,
not the claimed `now ≥ from ∨ now ≤ to`. -/
theorem mute_time_characterization (sf st : String) (f t now : Nat)
    (hf : parseTime sf = some f) (ht : parseTime st = some t) :
    (f < t → (Rssbot.is_mute_time sf st now = true ↔ f ≤ now ∧ now ≤ t))
    ∧ (t ≤ f → (Rssbot.is_mute_time sf st now = true ↔ f ≤ now ∨ now ≤ t))
    ∧ (f < t → (RssbotDev.is_mute_time sf st now = true ↔ f ≤ now ∧ now ≤ t))
    ∧ (t < f → (RssbotDev.is_mute_time sf st now = true ↔ f ≤ now ∨ now ≤ t))
    ∧ (f = t → RssbotDev.is_mute_time sf st now = false) := by
  simp only [Rssbot.is_mute_time, RssbotDev.is_mute_time, hf, ht]
  refine ⟨fun h => ?_, fun h => ?_, fun h => ?_, fun h => ?_, fun h => ?_⟩
  · rw [if_pos h]; simp only [decide_eq_true_eq]
  · rw [if_neg (by omega)]; simp only [decide_eq_true_eq]
  · simp only [Bool.or_eq_true, Bool.and_eq_true, decide_eq_true_eq]; omega
  · simp only [Bool.or_eq_true, Bool.and_eq_true, decide_eq_true_eq]; omega
  · subst h
    simp only [lt_self_iff_false, decide_eq_true_eq, decide_False, Bool.false_and,
      Bool.or_self]

/-- Closed instance of `mute_time_characterization`. -/
theorem mute_time_characterization_witness :
    (Rssbot.is_mute_time "22:00" "06:00" 84600 = true ↔ (79200 ≤ 84600 ∨ 84600 ≤ 21600))
    ∧ RssbotDev.is_mute_time "10:30" "10:30" 0 = false :=
  ⟨(mute_time_characterization "22:00" "06:00" 79200 21600 84600 (by decide)
      (by decide)).2.1 (by omega),
   (mute_time_characterization "10:30" "10:30" 37800 37800 0 (by decide)
      (by decide)).2.2.2.2 rfl⟩

/-- C4 counterexample: for `from = to = "10:00"` and `now = 10:00:00`, the
claim predicts muted (`now ≥ from` holds), but `rssbot_dev.py`'s
`is_mute_time` returns `false` (its wraparound disjunct requires the strict
`mute_from > mute_to`); `rssbot.py`'s variant returns `true` there. -/
theorem mute_time_equal_bounds_cx :
    parseTime "10:00" = some 36000
    ∧ (36000 ≤ (36000 : Nat) ∨ (36000 : Nat) ≤ 36000)
    ∧ RssbotDev.is_mute_time "10:00" "10:00" 36000 = false
    ∧ Rssbot.is_mute_time "10:00" "10:00" 36000 = true :=
  ⟨by decide, Or.inl le_rfl, by decide, by decide⟩

/-- C7: a malformed mute bound (either one failing to parse) makes both
variants of `is_mute_time` fail closed: they return `false` (not muted) for
every current time instead of raising, because the `ValueError` from
`strptime` is caught inside the function. -/
theorem mute_malformed_fail_closed (sf st : String) (now : Nat)
    (h : parseTime sf = none ∨ parseTime st = none) :
    Rssbot.is_mute_time sf st now = false
    ∧ RssbotDev.is_mute_time sf st now = false := by
  rcases h with h | h
  · cases h2 : parseTime st <;>
      simp [Rssbot.is_mute_time, RssbotDev.is_mute_time, h, h2]
  · cases h2 : parseTime sf <;>
      simp [Rssbot.is_mute_time, RssbotDev.is_mute_time, h, h2]

/-- Closed instance of `mute_malformed_fail_closed` at the malformed bound
`"25:00"` (hour out of range). -/
theorem mute_malformed_fail_closed_witness :
    parseTime "25:00" = none
    ∧ Rssbot.is_mute_time "25:00" "06:00" 0 = false
    ∧ RssbotDev.is_mute_time "25:00" "06:00" 0 = false :=
  ⟨by decide,
   (mute_malformed_fail_closed "25:00" "06:00" 0 (Or.inl (by decide))).1,
   (mute_malformed_fail_closed "25:00" "06:00" 0 (Or.inl (by decide))).2⟩

/-- C2 (amended): the 60-second rate limit exists only in
`rssbot_dev.py`'s `send_message`: with a recorded last successful send at
`t > 0` and `now - t < 60`, the call returns failure without issuing a
request, and with `now - t ≥ 60` it issues the request and succeeds when
the transport does.  `rssbot.py`'s `send_message`, also cited by the claim,
applies no rate limiting: whenever the token is present it issues one
request regardless of elapsed time, succeeding iff the transport does. -/
theorem send_message_rate_limit (t now : Nat) (tOk : Bool) :
    (0 < t → now - t < 60 →
      RssbotDev.send_message ⟨some t⟩ now tOk
        = { ok := false, requests := 0, state := ⟨some t⟩ })
    ∧ (60 ≤ now - t →
      RssbotDev.send_message ⟨some t⟩ now true
        = { ok := true, requests := 1, state := ⟨some now⟩ })
    ∧ (∀ token, Rssbot.tokenTruthy token = true →
      Rssbot.send_message token tOk = { ok := tOk, requests := 1 }) := by
  refine ⟨fun h1 h2 => ?_, fun h => ?_, fun token h => ?_⟩
  · have ht : RssbotDev.timeTruthy (some t) = true := by
      simp [RssbotDev.timeTruthy]; omega
    unfold RssbotDev.send_message
    rw [if_pos ⟨ht, h2⟩]
  · unfold RssbotDev.send_message
    rw [if_neg (fun hc => absurd (show now - t < 60 from hc.2) (by omega)),
      if_pos rfl]
  · simp [Rssbot.send_message, h]

/-- Closed instance of `send_message_rate_limit`: a send 30 s after a
successful one is rejected without a request, one 60 s after succeeds, and
the `rssbot.py` variant always issues the request when the token is
present. -/
theorem send_message_rate_limit_witness :
    RssbotDev.send_message ⟨some 1000⟩ 1030 true
      = { ok := false, requests := 0, state := ⟨some 1000⟩ }
    ∧ RssbotDev.send_message ⟨some 1000⟩ 1060 true
      = { ok := true, requests := 1, state := ⟨some 1060⟩ }
    ∧ Rssbot.send_message (some "syn_tok") true = { ok := true, requests := 1 } :=
  ⟨(send_message_rate_limit 1000 1030 true).1 (by omega) (by omega),
   (send_message_rate_limit 1000 1060 true).2.1 (by omega),
   (send_message_rate_limit 1000 1060 true).2.2 (some "syn_tok") (by decide)⟩

/-- C2 counterexample: `rssbot.py`'s `send_message`, cited by the claim,
keeps no record of the last successful send — its result is independent of
call timing.  A call issued at any moment after a successful send (in
particular strictly less than 60 seconds after it) still issues one HTTP
request and returns `True`, where the claim requires failure without a
request. -/
theorem send_message_no_rate_limit_cx :
    Rssbot.send_message (some "syn_tok") true = { ok := true, requests := 1 }
    ∧ ({ ok := true, requests := 1 } : Rssbot.HttpResult)
        ≠ { ok := false, requests := 0 } :=
  ⟨rfl, by decide⟩

/-- C8: when the token read from the configuration file at call time is
absent (`None`) or empty, `send_message` and `mark_message_as_read` of
`src/rssbot.py` both return `False` without issuing any HTTP request. -/
theorem missing_token_no_request (token : Option String) (eid : String)
    (tOk : Bool) (h : token = none ∨ token = some "") :
    Rssbot.send_message token tOk = { ok := false, requests := 0 }
    ∧ Rssbot.mark_message_as_read token eid tOk
        = { ok := false, requests := 0 } := by
  rcases h with h | h <;> subst h <;>
    simp [Rssbot.send_message, Rssbot.mark_message_as_read, Rssbot.tokenTruthy]

/-- Closed instance of `missing_token_no_request` with an absent token. -/
theorem missing_token_no_request_witness :
    Rssbot.send_message none true = { ok := false, requests := 0 }
    ∧ Rssbot.mark_message_as_read none "$evt1" true
        = { ok := false, requests := 0 } :=
  missing_token_no_request none "$evt1" true (Or.inl rfl)

/-- C10: a failing `send_message` call in `src/rssbot_dev.py` — whether
rejected by the rate limit or failed in transport — leaves
`last_sent_time` unchanged; only the success path assigns it. -/
theorem send_failure_preserves_last_sent (st : RssbotDev.SendState)
    (now : Nat) (tOk : Bool)
    (h : (RssbotDev.send_message st now tOk).ok = false) :
    (RssbotDev.send_message st now tOk).state = st := by
  unfold RssbotDev.send_message at h ⊢
  split at h
  · next hc => simp [hc]
  · next hc =>
      cases tOk
      · simp [hc]
      · simp at h

/-- Closed instance of `send_failure_preserves_last_sent`: a rate-limited
send 10 s after a successful one fails and keeps the old timestamp. -/
theorem send_failure_preserves_last_sent_witness :
    (RssbotDev.send_message ⟨some 500⟩ 510 true).ok = false
    ∧ (RssbotDev.send_message ⟨some 500⟩ 510 true).state = ⟨some 500⟩ :=
  ⟨by decide, send_failure_preserves_last_sent ⟨some 500⟩ 510 true (by decide)⟩

/-- A skipped feed contributes no articles. -/
theorem feedArticles_of_fails (r : Rssbot.FeedResult)
    (h : Rssbot.feedFails r = true) : Rssbot.feedArticles r = [] := by
  cases r with
  | fetchError => rfl
  | response status bozo es =>
    simp only [Rssbot.feedFails, Bool.or_eq_true, Bool.not_eq_true',
      beq_eq_false_iff_ne, ne_eq] at h
    rcases h with h | h
    · simp [Rssbot.feedArticles, h]
    · simp [Rssbot.feedArticles, h]

/-- Every article of the candidate pool is the image of some entry under
`entryToArticle`. -/
theorem mem_fetchAll_articles (feeds : List (String × Rssbot.FeedResult))
    (a : Rssbot.Article) (h : a ∈ (Rssbot.fetchAll feeds).articles) :
    ∃ e, a = Rssbot.entryToArticle e := by
  induction feeds with
  | nil => simp [Rssbot.fetchAll] at h
  | cons f fs ih =>
    obtain ⟨u, r⟩ := f
    simp only [Rssbot.fetchAll, List.mem_append] at h
    rcases h with h | h
    · cases r with
      | fetchError => simp [Rssbot.feedArticles] at h
      | response status bozo es =>
        simp only [Rssbot.feedArticles] at h
        split at h
        · split at h
          · simp at h
          · obtain ⟨e, _, he⟩ := List.mem_map.mp h
            exact ⟨e, he.symm⟩
        · simp at h
    · exact ih h

/-- C3 (amended): the repository has no feed cache: every call of
`fetch_random_article` issues exactly one network request per configured
feed source, regardless of any earlier fetch or of elapsed time, and
records no fetch timestamp. -/
theorem fetch_always_requests (feeds : List (String × Rssbot.FeedResult)) :
    (Rssbot.fetchAll feeds).requests = feeds.map Prod.fst := by
  induction feeds with
  | nil => rfl
  | cons f fs ih => obtain ⟨u, r⟩ := f; simp [Rssbot.fetchAll, ih]

/-- C3 counterexample: the claim predicts that a fetch of source
`"http://feed"` occurring within 30 minutes of a prior successful fetch
issues no network call.  `fetch_random_article` keeps no state between
calls, so a repeat invocation is this same evaluation — and it requests
`"http://feed"` over the network (a nonempty request list). -/
theorem fetch_no_cache_cx :
    (Rssbot.fetchAll
      [("http://feed", Rssbot.FeedResult.response 200 false
          [{ title := "A", link := "http://x/a", summary := none }])]).requests
      = ["http://feed"]
    ∧ ["http://feed"] ≠ ([] : List String) :=
  ⟨rfl, by decide⟩

/-- C5: `fetch_random_article` skips every failing feed without aborting
the loop (the pool over `pre ++ failing :: post` equals the pool over
`pre ++ post`), returns `none` exactly when the concatenated pool is
empty, otherwise returns an element of the pool, and every pool element
comes from an entry with the summary defaulted to the placeholder when the
entry has none. -/
theorem fetch_random_article_spec
    (feeds : List (String × Rssbot.FeedResult)) (c : Nat) :
    (Rssbot.fetch_random_article feeds c = none
      ↔ (Rssbot.fetchAll feeds).articles = [])
    ∧ (∀ a, Rssbot.fetch_random_article feeds c = some a →
        a ∈ (Rssbot.fetchAll feeds).articles)
    ∧ (∀ (pre post : List (String × Rssbot.FeedResult)) (u : String)
        (r : Rssbot.FeedResult), Rssbot.feedFails r = true →
        (Rssbot.fetchAll (pre ++ (u, r) :: post)).articles
          = (Rssbot.fetchAll (pre ++ post)).articles)
    ∧ (∀ a, a ∈ (Rssbot.fetchAll feeds).articles →
        ∃ e, a = Rssbot.entryToArticle e
          ∧ (e.summary = none → a.summary = "No summary available.")) := by
  refine ⟨?_, ?_, ?_, ?_⟩
  · unfold Rssbot.fetch_random_article
    by_cases he : (Rssbot.fetchAll feeds).articles.isEmpty
    · rw [if_pos he]
      simp [List.isEmpty_iff.mp he]
    · rw [if_neg he]
      have hlen : 0 < (Rssbot.fetchAll feeds).articles.length := by
        cases hh : (Rssbot.fetchAll feeds).articles with
        | nil => rw [hh] at he; simp at he
        | cons x xs => simp
      rw [List.getElem?_eq_getElem (Nat.mod_lt _ hlen)]
      constructor
      · intro h; exact absurd h (by simp)
      · intro h; rw [h] at hlen; simp at hlen
  · intro a h
    unfold Rssbot.fetch_random_article at h
    by_cases he : (Rssbot.fetchAll feeds).articles.isEmpty
    · rw [if_pos he] at h; exact absurd h (by simp)
    · rw [if_neg he] at h
      exact List.getElem?_mem h
  · intro pre post u r hr
    induction pre with
    | nil =>
      simp [Rssbot.fetchAll, feedArticles_of_fails r hr]
    | cons f fs ih =>
      obtain ⟨u2, r2⟩ := f
      simp only [List.cons_append, Rssbot.fetchAll, List.append_eq, ih]
  · intro a ha
    obtain ⟨e, he⟩ := mem_fetchAll_articles feeds a ha
    refine ⟨e, he, fun hs => ?_⟩
    rw [he]
    simp [Rssbot.entryToArticle, hs]

/-- Closed instance of `fetch_random_article_spec`: with one failing feed
and one good feed of a single summaryless entry, the failing feed is
skipped (equal pools with it removed) and the call returns that entry's
article with the placeholder summary. -/
theorem fetch_random_article_spec_witness :
    (Rssbot.fetchAll ([] ++ ("http://bad", Rssbot.FeedResult.fetchError)
        :: [("http://good", Rssbot.FeedResult.response 200 false
            [{ title := "A", link := "http://x/a", summary := none }])])).articles
      = (Rssbot.fetchAll ([] ++ [("http://good", Rssbot.FeedResult.response 200 false
            [{ title := "A", link := "http://x/a", summary := none }])])).articles
    ∧ Rssbot.fetch_random_article
        [("http://bad", Rssbot.FeedResult.fetchError),
         ("http://good", Rssbot.FeedResult.response 200 false
            [{ title := "A", link := "http://x/a", summary := none }])] 0
      = some { title := "A", link := "http://x/a",
               summary := "No summary available." } :=
  ⟨(fetch_random_article_spec [] 0).2.2.1 []
      [("http://good", Rssbot.FeedResult.response 200 false
          [{ title := "A", link := "http://x/a", summary := none }])]
      "http://bad" Rssbot.FeedResult.fetchError rfl,
   by decide⟩

/-- C1 (amended): the listener has no exponential backoff: each
poll-request failure is followed by a fixed 10-second sleep, independent of
how many failures preceded it, and a successful poll sleeps not at all;
there is no backoff state to reset. -/
theorem listener_fixed_sleep (since : Option String) :
    Rssbot.listenStep since Rssbot.PollResult.clientError
      = Rssbot.StepOutcome.cont since 10 []
    ∧ (∀ resp, (Rssbot.processEvents resp.room_events).2 = false →
        Rssbot.listenStep since (Rssbot.PollResult.ok resp)
          = Rssbot.StepOutcome.cont (Rssbot.updateSince since resp) 0
              (Rssbot.processEvents resp.room_events).1) := by
  refine ⟨rfl, fun resp h => ?_⟩
  simp [Rssbot.listenStep, h]

/-- Closed instance of `listener_fixed_sleep` at an empty successful
response. -/
theorem listener_fixed_sleep_witness :
    Rssbot.listenStep none (Rssbot.PollResult.ok ⟨some "s1", []⟩)
      = Rssbot.StepOutcome.cont (some "s1") 0 [] :=
  (listener_fixed_sleep none).2 ⟨some "s1", []⟩ rfl

/-- C1 counterexample: after two consecutive poll failures the sleep
durations are `[10, 10]`, not the claimed `[1, 2]`: `src/rssbot.py` line
201 sleeps a constant 10 seconds in the error handler and keeps no backoff
state. -/
theorem listener_no_backoff_cx :
    Rssbot.listen_for_events (some "syn_token")
        [Rssbot.PollResult.clientError, Rssbot.PollResult.clientError]
      = Rssbot.RunResult.polling none [10, 10]
    ∧ ([10, 10] : List Nat) ≠ [1, 2] :=
  ⟨rfl, by decide⟩

/-- Safe polls keep `listenGo` looping: it consumes its whole trace and is
still polling. -/
theorem listenGo_no_termination (polls : List Rssbot.PollResult)
    (hp : ∀ p ∈ polls, Rssbot.pollSafe p = true) :
    ∀ since sleeps, ∃ s sl,
      Rssbot.listenGo since polls sleeps = Rssbot.RunResult.polling s sl := by
  induction polls with
  | nil => exact fun since sleeps => ⟨since, sleeps, rfl⟩
  | cons p ps ih =>
    intro since sleeps
    have hps : ∀ q ∈ ps, Rssbot.pollSafe q = true :=
      fun q hq => hp q (List.mem_cons_of_mem _ hq)
    cases p with
    | clientError =>
      simp only [Rssbot.listenGo, Rssbot.listenStep]
      exact ih hps since (sleeps ++ [10])
    | ok resp =>
      have h2 : (Rssbot.processEvents resp.room_events).2 = false := by
        have := hp _ (List.mem_cons_self _ _)
        simpa [Rssbot.pollSafe] using this
      have hstep : Rssbot.listenStep since (Rssbot.PollResult.ok resp)
          = Rssbot.StepOutcome.cont (Rssbot.updateSince since resp) 0
              (Rssbot.processEvents resp.room_events).1 := by
        simp [Rssbot.listenStep, h2]
      simp only [Rssbot.listenGo, hstep]
      exact ih hps _ _

/-- C6 (amended): the listener terminates on its own when the token read at
startup is falsy (it returns before any polling; see
`listen_missing_token_cx`), and an uncaught `KeyError` on a malformed event
kills it; but with the token present, poll-request failures never end the
loop: any finite trace of network errors and well-formed responses leaves
it still polling. -/
theorem listen_never_self_terminates (token : Option String)
    (polls : List Rssbot.PollResult)
    (ht : Rssbot.tokenTruthy token = true)
    (hp : ∀ p ∈ polls, Rssbot.pollSafe p = true) :
    ∃ s sl, Rssbot.listen_for_events token polls
      = Rssbot.RunResult.polling s sl := by
  unfold Rssbot.listen_for_events
  rw [if_pos ht]
  exact listenGo_no_termination polls hp none []

/-- Closed instance of `listen_never_self_terminates`: a failure followed
by a successful empty response leaves the listener polling. -/
theorem listen_never_self_terminates_witness :
    ∃ s sl, Rssbot.listen_for_events (some "syn_token")
        [Rssbot.PollResult.clientError,
         Rssbot.PollResult.ok ⟨some "b1", []⟩]
      = Rssbot.RunResult.polling s sl :=
  listen_never_self_terminates (some "syn_token")
    [Rssbot.PollResult.clientError, Rssbot.PollResult.ok ⟨some "b1", []⟩]
    rfl (by decide)

/-- C6 counterexample: with the token absent, `listen_for_events` returns
immediately — terminating on its own without consuming the available poll
— where the claim says the loop never terminates for any input, missing
token included. -/
theorem listen_missing_token_cx :
    Rssbot.listen_for_events none [Rssbot.PollResult.clientError]
      = Rssbot.RunResult.returned [] := rfl

/-- An event whose handler looks up a missing dictionary key: a
message-type event without `event_id`, or a member-type event whose
content has no `membership`. -/
def keyErrorEvent (e : Rssbot.Event) : Prop :=
  (e.type = "m.room.message" ∧ e.event_id = none)
  ∨ (e.type = "m.room.member" ∧ e.content_membership = none)

/-- Such an event raises (is not handled). -/
theorem processEvent_keyError (e : Rssbot.Event) (h : keyErrorEvent e) :
    Rssbot.processEvent e = .error () := by
  rcases h with ⟨ht, hid⟩ | ⟨ht, hm⟩
  · simp [Rssbot.processEvent, ht, hid]
  · simp [Rssbot.processEvent, ht, hm]

/-- Processing a cleanly-processed block of events followed by more events
appends the actions and keeps the tail's raise status. -/
theorem processEvents_append_ok (l1 : List Rssbot.Event)
    (acts : List Rssbot.Action)
    (h : Rssbot.processEvents l1 = (acts, false)) (l2 : List Rssbot.Event) :
    Rssbot.processEvents (l1 ++ l2)
      = (acts ++ (Rssbot.processEvents l2).1,
         (Rssbot.processEvents l2).2) := by
  induction l1 generalizing acts with
  | nil =>
    have : acts = [] := by
      have := congrArg Prod.fst h
      simpa [Rssbot.processEvents] using this.symm
    subst this
    simp
  | cons e es ih =>
    cases hpe : Rssbot.processEvent e with
    | error u =>
      rw [Rssbot.processEvents, hpe] at h
      exact absurd (congrArg Prod.snd h) (by simp)
    | ok oa =>
      cases oa with
      | none =>
        rw [Rssbot.processEvents, hpe] at h
        rw [List.cons_append, Rssbot.processEvents, hpe]
        exact ih acts h
      | some a =>
        rw [Rssbot.processEvents, hpe] at h
        have h2 : (Rssbot.processEvents es).2 = false := by
          have := congrArg Prod.snd h
          simpa using this
        have h1 : a :: (Rssbot.processEvents es).1 = acts := by
          have := congrArg Prod.fst h
          simpa using this
        have hes : Rssbot.processEvents es
            = ((Rssbot.processEvents es).1, false) := by
          rw [← h2]
        rw [List.cons_append, Rssbot.processEvents, hpe,
          ih (Rssbot.processEvents es).1 hes, ← h1]
        simp

/-- C9: a timeline event of type `m.room.member` whose content lacks
`membership` (or a message event lacking `event_id`) raises a `KeyError`
that the `except aiohttp.ClientError` handler does not catch: the step
outcome is `raised` (not a continuing iteration), only the actions of the
events before the bad one were performed, and the events after it
contribute nothing. -/
theorem malformed_event_uncaught (since nb : Option String)
    (pre post : List Rssbot.Event) (bad : Rssbot.Event)
    (acts : List Rssbot.Action)
    (h1 : Rssbot.processEvents pre = (acts, false))
    (h2 : keyErrorEvent bad) :
    Rssbot.processEvents (pre ++ bad :: post) = (acts, true)
    ∧ Rssbot.listenStep since (Rssbot.PollResult.ok ⟨nb, pre ++ bad :: post⟩)
      = Rssbot.StepOutcome.raised acts := by
  have hbad : Rssbot.processEvents (bad :: post) = ([], true) := by
    rw [Rssbot.processEvents, processEvent_keyError bad h2]
  have hall : Rssbot.processEvents (pre ++ bad :: post) = (acts, true) := by
    rw [processEvents_append_ok pre acts h1 (bad :: post), hbad]
    simp
  refine ⟨hall, ?_⟩
  simp [Rssbot.listenStep, hall]

/-- Closed instance of `malformed_event_uncaught`: a well-formed message,
then a member event without `membership`, then another message; only the
first message's read-receipt action happens and the step raises. -/
theorem malformed_event_uncaught_witness :
    Rssbot.processEvents
        [⟨"m.room.message", some "$e1", none, none⟩,
         ⟨"m.room.member", none, none, some "@user:hs"⟩,
         ⟨"m.room.message", some "$e2", none, none⟩]
      = ([Rssbot.Action.markRead "$e1"], true)
    ∧ Rssbot.listenStep none (Rssbot.PollResult.ok ⟨some "b2",
        [⟨"m.room.message", some "$e1", none, none⟩,
         ⟨"m.room.member", none, none, some "@user:hs"⟩,
         ⟨"m.room.message", some "$e2", none, none⟩]⟩)
      = Rssbot.StepOutcome.raised [Rssbot.Action.markRead "$e1"] :=
  malformed_event_uncaught none (some "b2")
    [⟨"m.room.message", some "$e1", none, none⟩]
    [⟨"m.room.message", some "$e2", none, none⟩]
    ⟨"m.room.member", none, none, some "@user:hs"⟩
    [Rssbot.Action.markRead "$e1"]
    (by decide) (Or.inr ⟨rfl, rfl⟩)
